import Mathlib

/-!
Verification of the neural style transfer script `src/style_transfer/train.py`.

The script is embedded shallowly: pure computations (resize arithmetic,
Gram matrices, loss assembly, denormalization) become Lean functions over ℚ;
the top-level control flow (image loading, the training loop, reporting,
export) becomes an explicit event trace; the mutable parameter store of the
optimizer becomes explicit state passing.  Semantics of the external
libraries the script calls (torchvision's `Resize`, `torch.mean`,
`torch.mm`, numpy's `clip`, PyTorch's autograd/optimizer contract) are
embedded according to their documented behaviour.
-/

namespace StyleTransfer

/-! ### Image loading: `load_image` -/

/-- Python's substring test `need in hay` (used by `load_image` as
`"http" in img_path`), embedded as a scan over the character list. -/
def strContains (hay need : List Char) : Bool :=
  match hay with
  | [] => need.isEmpty
  | c :: t => need.isPrefixOf (c :: t) || strContains t need

/-- Condition of `load_image`'s first branch: `if "http" in img_path`. -/
def load_image_isRemote (img_path : String) : Bool :=
  strContains img_path.toList "http".toList

/-- How `load_image` obtains the bytes of the image. -/
inductive ImageSource where
  | remote (url : String)
  | localFile (path : String)
  deriving DecidableEq, Repr

/-- The branch `load_image` takes on its source string: `requests.get`
when `"http" in img_path`, else `Image.open(img_path)`. -/
def load_image_source (img_path : String) : ImageSource :=
  if load_image_isRemote img_path then ImageSource.remote img_path
  else ImageSource.localFile img_path

/-- The `size` computed by `load_image` when `shape is None`:
`max_size` if `max(image.size) > max_size` else `max(image.size)`,
where PIL's `image.size` is `(width, height)`. -/
def load_image_size (max_size w h : Nat) : Nat :=
  if max w h > max_size then max_size else max w h

/-- torchvision `transforms.Resize(size)` with an integer `size`: the
smaller edge of the image is matched to `size` and the other edge is
scaled to keep the aspect ratio, truncated to an integer
(`ow = size; oh = int(size * h / w)` when `w <= h`, symmetrically
otherwise).  Returns PIL-order `(width, height)`. -/
def torch_resize (size w h : Nat) : Nat × Nat :=
  if w ≤ h then (size, size * h / w) else (size * w / h, size)

/-- Spatial dimensions `(width, height)` of the tensor returned by
`load_image` for a `w × h` source image when no explicit `shape` is
passed. -/
def load_image_dims (max_size w h : Nat) : Nat × Nat :=
  torch_resize (load_image_size max_size w h) w h

/-- Fatal failure of `load_image`: the source cannot be fetched or
decoded (`requests.get`/`Image.open` raise and nothing catches). -/
inductive RetrievalError where
  | unreachable (source : String)
  deriving DecidableEq, Repr

/-- Fetch-and-decode step of `load_image`, over an oracle `fetch` saying
which sources are retrievable.  An unretrievable source raises, which the
script never catches, so the failure is modelled as `Except.error`. -/
def load_image_fetch {Img : Type} (fetch : String → Option Img) (img_path : String) :
    Except RetrievalError Img :=
  match fetch img_path with
  | some img => Except.ok img
  | none => Except.error (RetrievalError.unreachable img_path)

/-! ### Script configuration constants -/

/-- Source of the content image: `load_image('images/pisa.jpeg')`. -/
def content_path : String := "images/pisa.jpeg"

/-- Source of the style image: `load_image('images/ship_at_sea.jpeg', ...)`. -/
def style_path : String := "images/ship_at_sea.jpeg"

/-- Reporting interval: `show_every = 200`. -/
def show_every : Nat := 200

/-- Iteration hyperparameter: `steps = 2001`. -/
def steps : Nat := 2001

/-! ### The observable events of the run -/

/-- Observable side effects of the script, in program order:
`writer.add_scalar("total_loss", total_loss, ii)`, `print('Total loss: ', ...)`,
`plt.imshow(im_convert(target))`, `writer.add_figure("figs", ..., ii)`, and the
final `matplotlib.image.imsave("target.png", im_convert(target))`. -/
inductive Event where
  | addScalar (ii : Nat)
  | printLoss (ii : Nat)
  | imshowTarget (ii : Nat)
  | addFigure (ii : Nat)
  | saveTarget
  deriving DecidableEq, Repr

/-- Events emitted by the body of the training loop at iteration `ii`:
the scalar is always written; the print, the intermediate display and the
figure happen only when `ii % show_every == 0`. -/
def iterEvents (ii : Nat) : List Event :=
  Event.addScalar ii ::
    (if ii % show_every = 0 then
      [Event.printLoss ii, Event.imshowTarget ii, Event.addFigure ii]
    else [])

/-- Events of the whole loop `for ii in range(0, steps+1)`. -/
def loopEvents : List Event :=
  (List.range (steps + 1)).flatMap iterEvents

/-- Events of the whole run: the loop, then the final image export. -/
def programEvents : List Event :=
  loopEvents ++ [Event.saveTarget]

/-- Control flow of the run with respect to image retrieval: the content
and style images are loaded before the loop; a retrieval failure aborts
and no loop event is ever emitted. -/
def runProgram {Img : Type} (fetch : String → Option Img) :
    List Event × Option RetrievalError :=
  match load_image_fetch fetch content_path with
  | Except.error e => ([], some e)
  | Except.ok _ =>
      match load_image_fetch fetch style_path with
      | Except.error e => ([], some e)
      | Except.ok _ => (programEvents, none)

/-! ### Feature maps and Gram matrices -/

/-- A feature map: a rank-4 activation tensor of shape `(1, C, H, W)`
with rational entries, indexed channel / row / column. -/
structure FeatureMap where
  C : Nat
  H : Nat
  W : Nat
  data : Nat → Nat → Nat → ℚ

/-- Row-major flattening `tensor.view(d, h * w)` of a feature map. -/
def FeatureMap.flat (F : FeatureMap) (c p : Nat) : ℚ :=
  F.data c (p / F.W) (p % F.W)

/-- The flattened feature map as a `C × (H·W)` matrix. -/
def FeatureMap.asMatrix (F : FeatureMap) : Matrix (Fin F.C) (Fin (F.H * F.W)) ℚ :=
  Matrix.of fun c p => F.flat c p

/-- Entry `(i, j)` of `gram_matrix`: the source reshapes the tensor to
`(d, h*w)` and returns `torch.mm(tensor, tensor.t())`, so entry `(i, j)`
is the dot product of flattened channels `i` and `j`, with no
normalization. -/
def gram_matrix (F : FeatureMap) (i j : Nat) : ℚ :=
  ∑ p ∈ Finset.range (F.H * F.W), F.flat i p * F.flat j p

/-! ### Loss computation -/

/-- Embedding of `torch.mean((A - B)**2)` for two `(1, C, H, W)` tensors:
the mean runs over the `C·H·W` elements of the first argument's shape. -/
def mseFeature (A B : FeatureMap) : ℚ :=
  (∑ c ∈ Finset.range A.C, ∑ y ∈ Finset.range A.H, ∑ x ∈ Finset.range A.W,
      (A.data c y x - B.data c y x) ^ 2) / (A.C * A.H * A.W)

/-- Embedding of `torch.mean((G1 - G2)**2)` for two `d × d` Gram
matrices. -/
def mseGram (d : Nat) (G1 G2 : Nat → Nat → ℚ) : ℚ :=
  (∑ i ∈ Finset.range d, ∑ j ∈ Finset.range d, (G1 i j - G2 i j) ^ 2) / (d * d)

/-- Designated content layer: the loss reads `target_features['conv4_2']`
and `content_features['conv4_2']`. -/
def content_layer : String := "conv4_2"

/-- Per-layer style weights, in the dictionary's insertion order. -/
def style_weights : List (String × ℚ) :=
  [("conv1_1", 1), ("conv2_1", 8 / 10), ("conv3_1", 5 / 10),
   ("conv4_1", 3 / 10), ("conv5_1", 1 / 10)]

/-- Weight `content_weight = 1`. -/
def content_weight : ℚ := 1

/-- Weight `style_weight = 1e6`. -/
def style_weight : ℚ := 1000000

/-- `content_loss = torch.mean((target_features['conv4_2'] -
content_features['conv4_2'])**2)`. -/
def content_loss (target_features content_features : String → FeatureMap) : ℚ :=
  mseFeature (target_features content_layer) (content_features content_layer)

/-- `style_grams = {layer: gram_matrix(style_features[layer]) for layer in
style_features}`, restricted to the layers the loss reads. -/
def style_grams (style_features : String → FeatureMap) : String → Nat → Nat → ℚ :=
  fun layer => gram_matrix (style_features layer)

/-- The `style_loss` accumulation loop of one iteration: starting from 0,
for each layer of `style_weights` compute
`layer_style_loss = style_weights[layer] * torch.mean((target_gram - style_gram)**2)`
and accumulate `style_loss += layer_style_loss / (d * h * w)` with
`_, d, h, w = target_feature.shape`. -/
def style_loss (target_features : String → FeatureMap)
    (styleGrams : String → Nat → Nat → ℚ) : ℚ :=
  style_weights.foldl
    (fun acc lw =>
      let tf := target_features lw.1
      acc + lw.2 * mseGram tf.C (gram_matrix tf) (styleGrams lw.1) / (tf.C * tf.H * tf.W))
    0

/-- `total_loss = content_weight * content_loss + style_weight * style_loss`. -/
def total_loss (target_features content_features : String → FeatureMap)
    (styleGrams : String → Nat → Nat → ℚ) : ℚ :=
  content_weight * content_loss target_features content_features
    + style_weight * style_loss target_features styleGrams

/-! ### Export: `im_convert` and `imsave` -/

/-- ImageNet channel means `(0.485, 0.456, 0.406)`. -/
def vgg_mean : Fin 3 → ℚ := ![485 / 1000, 456 / 1000, 406 / 1000]

/-- ImageNet channel standard deviations `(0.229, 0.224, 0.225)`. -/
def vgg_std : Fin 3 → ℚ := ![229 / 1000, 224 / 1000, 225 / 1000]

/-- numpy `image.clip(0, 1)`, per element. -/
def clip01 (x : ℚ) : ℚ := min (max x 0) 1

/-- One pixel of `im_convert`: un-normalize by `* std + mean` for its
channel, then clip to `[0, 1]`. -/
def im_convert_pixel (c : Fin 3) (x : ℚ) : ℚ :=
  clip01 (x * vgg_std c + vgg_mean c)

/-- `im_convert` on a `(3, H, W)` tensor: squeeze the batch dimension,
transpose to `(H, W, 3)`, un-normalize each channel and clip; this is the
array handed to `matplotlib.image.imsave("target.png", ...)`. -/
def im_convert (img : Fin 3 → Nat → Nat → ℚ) : Nat → Nat → Fin 3 → ℚ :=
  fun y x c => im_convert_pixel c (img c y x)

/-! ### Parameter store and optimizer frame -/

/-- The trainable-tensor identifiers of the script: the target image and
the (indexed) parameters of the VGG feature extractor. -/
inductive ParamId where
  | targetImage
  | vggParam (i : Nat)
  deriving DecidableEq, Repr

/-- Parameter list of `optimizer = optim.Adam([target], lr=0.003)`. -/
def optimizer_params : List ParamId := [ParamId.targetImage]

/-- Gradient tracking flags set by the script:
`for param in vgg.parameters(): param.requires_grad_(False)` and
`target = content.clone().requires_grad_(True)`. -/
def requires_grad : ParamId → Bool
  | ParamId.targetImage => true
  | ParamId.vggParam _ => false

/-- `total_loss.backward()`: autograd produces a gradient only for tensors
with `requires_grad` set; frozen tensors receive none (modelled as 0). -/
def backward_grad {V : Type} [Zero V] (g : ParamId → V) (p : ParamId) : V :=
  if requires_grad p then g p else 0

/-- `optimizer.step()`: the optimizer applies its per-parameter update
rule `adam` exactly to the parameters it was constructed over, and leaves
every other tensor untouched. -/
def optimizer_step {V : Type} (adam : V → V → V) (grad : ParamId → V)
    (store : ParamId → V) : ParamId → V :=
  fun p => if p ∈ optimizer_params then adam (store p) (grad p) else store p

/-- One iteration of the training loop acting on the parameter store:
`get_features` and the loss computation are pure reads of the store
(`gradOf` computes the backpropagated raw gradients from it); the only
write is `optimizer.step()`. -/
def loop_iter {V : Type} [Zero V] (adam : V → V → V)
    (gradOf : (ParamId → V) → ParamId → V) (store : ParamId → V) : ParamId → V :=
  optimizer_step adam (backward_grad (gradOf store)) store

/-! ### Helper lemmas -/

lemma strContains_iff_infix (hay need : List Char) :
    strContains hay need = true ↔ need <:+: hay := by
  induction hay with
  | nil => simp [strContains, List.isEmpty_iff]
  | cons c t ih =>
      rw [strContains]
      simp [List.infix_cons_iff, ih, List.isPrefixOf_iff_prefix]

lemma mem_iterEvents_addScalar (k ii : Nat) :
    Event.addScalar k ∈ iterEvents ii ↔ k = ii := by
  unfold iterEvents
  by_cases h : ii % show_every = 0 <;> simp [h]

lemma mem_iterEvents_printLoss (k ii : Nat) :
    Event.printLoss k ∈ iterEvents ii ↔ k = ii ∧ ii % show_every = 0 := by
  unfold iterEvents
  by_cases h : ii % show_every = 0 <;> simp [h]

lemma mem_iterEvents_imshowTarget (k ii : Nat) :
    Event.imshowTarget k ∈ iterEvents ii ↔ k = ii ∧ ii % show_every = 0 := by
  unfold iterEvents
  by_cases h : ii % show_every = 0 <;> simp [h]

lemma mem_iterEvents_addFigure (k ii : Nat) :
    Event.addFigure k ∈ iterEvents ii ↔ k = ii ∧ ii % show_every = 0 := by
  unfold iterEvents
  by_cases h : ii % show_every = 0 <;> simp [h]

lemma saveTarget_not_mem_iterEvents (ii : Nat) :
    Event.saveTarget ∉ iterEvents ii := by
  unfold iterEvents
  by_cases h : ii % show_every = 0 <;> simp [h]

lemma saveTarget_not_mem_loopEvents : Event.saveTarget ∉ loopEvents := by
  unfold loopEvents
  simp [List.mem_flatMap, saveTarget_not_mem_iterEvents]

/-! ### Claim theorems -/

/-- C1 (code evaluation at the failing input): with the default
`max_size = 400`, an 800×600 source image is returned as 533×400 — the
larger spatial dimension is 533, not `min 400 (max 800 600) = 400` as the
claim and the function's own docstring state; and a 300×200 image, both
of whose dimensions are already below the cap, is upsized to 450×300. -/
theorem load_image_resize_violates_cap :
    load_image_dims 400 800 600 = (533, 400)
    ∧ max (load_image_dims 400 800 600).1 (load_image_dims 400 800 600).2
        ≠ min 400 (max 800 600)
    ∧ load_image_dims 400 300 200 = (450, 300) := by decide

/-- C2: the total loss is `content_weight * contentLoss + style_weight *
styleLoss`, where `contentLoss` is the mean squared error of the
activations at `conv4_2` and `styleLoss` is the sum over the configured
style layers of the layer's weight times the mean squared error between
the target's and the precomputed style Gram matrices, divided by `C·H·W`
of that layer's target feature map. -/
theorem total_loss_decomposition (tf cf : String → FeatureMap)
    (sg : String → Nat → Nat → ℚ) :
    total_loss tf cf sg
      = content_weight * mseFeature (tf "conv4_2") (cf "conv4_2")
        + style_weight *
          ((style_weights.map fun lw =>
              lw.2 * mseGram (tf lw.1).C (gram_matrix (tf lw.1)) (sg lw.1)
                / ((tf lw.1).C * (tf lw.1).H * (tf lw.1).W)).sum) := by
  simp only [total_loss, content_loss, content_layer, style_loss, style_weights,
    List.foldl_cons, List.foldl_nil, List.map_cons, List.map_nil,
    List.sum_cons, List.sum_nil]
  ring

/-- C3: `gram_matrix` of a `(1, C, H, W)` feature map is exactly the
matrix product `X · Xᵗ` of the `(C, H·W)` reshape — a `C × C` matrix with
no normalization by `H·W` — and the division by `C·H·W` happens only in
the style loss, applied to the squared Gram difference. -/
theorem gram_matrix_unnormalized_product :
    (∀ (F : FeatureMap) (i j : Fin F.C),
        gram_matrix F i j = (F.asMatrix * F.asMatrix.transpose) i j)
    ∧ (∀ (tf : String → FeatureMap) (sg : String → Nat → Nat → ℚ),
        style_loss tf sg
          = (style_weights.map fun lw =>
              lw.2 * ((∑ i ∈ Finset.range (tf lw.1).C, ∑ j ∈ Finset.range (tf lw.1).C,
                    (gram_matrix (tf lw.1) i j - sg lw.1 i j) ^ 2)
                  / ((tf lw.1).C * (tf lw.1).C))
                / ((tf lw.1).C * (tf lw.1).H * (tf lw.1).W)).sum) := by
  constructor
  · intro F i j
    rw [Matrix.mul_apply, gram_matrix, ← Fin.sum_univ_eq_sum_range]
    simp [FeatureMap.asMatrix, Matrix.transpose_apply]
  · intro tf sg
    simp only [style_loss, mseGram, style_weights, List.foldl_cons, List.foldl_nil,
      List.map_cons, List.map_nil, List.sum_cons, List.sum_nil]
    ring

/-- C4: across any number of iterations of the training loop, the VGG
feature extractor's parameters are never updated — only the target image
is in the optimizer's parameter list — and backpropagation assigns frozen
parameters no gradient. -/
theorem vgg_parameters_never_updated {V : Type} [Zero V] (adam : V → V → V)
    (gradOf : (ParamId → V) → ParamId → V) (store : ParamId → V) (n i : Nat) :
    (loop_iter adam gradOf)^[n] store (ParamId.vggParam i) = store (ParamId.vggParam i)
    ∧ backward_grad (gradOf store) (ParamId.vggParam i) = 0 := by
  constructor
  · induction n with
    | zero => rfl
    | succ m ih =>
        rw [Function.iterate_succ_apply']
        have hstep : ∀ st : ParamId → V,
            loop_iter adam gradOf st (ParamId.vggParam i) = st (ParamId.vggParam i) := by
          intro st
          simp [loop_iter, optimizer_step, optimizer_params]
        rw [hstep, ih]
  · simp [backward_grad, requires_grad]

/-- C5: the loop `for ii in range(0, steps+1)` with `steps = 2001`
executes exactly 2002 iterations, indexed 0 through 2001 inclusive, and
the image export follows the loop (it is the last event and occurs in no
iteration's events). -/
theorem loop_iteration_count_then_export :
    steps = 2001
    ∧ (List.range (steps + 1)).length = 2002
    ∧ (∀ ii : Nat, ii ∈ List.range (steps + 1) ↔ ii ≤ 2001)
    ∧ programEvents.getLast? = some Event.saveTarget
    ∧ Event.saveTarget ∉ loopEvents := by
  refine ⟨rfl, by simp [steps], fun ii => by simp [steps, Nat.lt_succ_iff], ?_,
    saveTarget_not_mem_loopEvents⟩
  unfold programEvents
  exact List.getLast?_concat _

/-- C6: a source the fetch oracle cannot retrieve makes `load_image`
signal a `RetrievalError`, and a retrieval failure of the content or
style image aborts the run before any loop event is emitted. -/
theorem load_failure_aborts_before_loop {Img : Type} (fetch : String → Option Img) :
    (∀ path : String, fetch path = none →
        load_image_fetch fetch path = Except.error (RetrievalError.unreachable path))
    ∧ ((fetch content_path = none ∨ fetch style_path = none) →
        (runProgram fetch).2.isSome = true ∧ (runProgram fetch).1 = []) := by
  constructor
  · intro path h
    unfold load_image_fetch
    rw [h]
  · intro h
    rcases h with h | h
    · simp [runProgram, load_image_fetch, h]
    · cases hc : fetch content_path <;>
        simp [runProgram, load_image_fetch, hc, h]

/-- Witness for C6 at the oracle that retrieves nothing. -/
theorem load_failure_aborts_before_loop_witness :
    load_image_fetch (fun _ => (none : Option Unit)) content_path
        = Except.error (RetrievalError.unreachable content_path)
    ∧ (runProgram (fun _ => (none : Option Unit))).1 = [] :=
  ⟨(load_failure_aborts_before_loop (fun _ => none)).1 content_path rfl,
   ((load_failure_aborts_before_loop (fun _ => none)).2 (Or.inl rfl)).2⟩

/-- C7: every pixel of the exported image is in `[0, 1]`: `im_convert`
composes the affine un-normalization with a clip to `[0, 1]`. -/
theorem exported_pixels_in_unit_interval (img : Fin 3 → Nat → Nat → ℚ)
    (y x : Nat) (c : Fin 3) :
    0 ≤ im_convert img y x c ∧ im_convert img y x c ≤ 1 := by
  unfold im_convert im_convert_pixel clip01
  exact ⟨le_min (le_max_right _ _) zero_le_one, min_le_right _ _⟩

/-- C8: the Gram matrix is symmetric: entry `(i, j)` equals entry
`(j, i)` for every feature map. -/
theorem gram_matrix_symmetric (F : FeatureMap) (i j : Nat) :
    gram_matrix F i j = gram_matrix F j i := by
  unfold gram_matrix
  exact Finset.sum_congr rfl fun p _ => mul_comm _ _

/-- C9: `load_image` classifies a source as remote iff `"http"` occurs as
a substring anywhere in it; a local-looking path containing `"http"`
(such as `http_images/cat.png`) is fetched over the network, and a source
without the substring is opened locally. -/
theorem remote_iff_http_substring :
    (∀ s : String, load_image_source s = ImageSource.remote s ↔ "http".toList <:+: s.toList)
    ∧ load_image_source "http_images/cat.png" = ImageSource.remote "http_images/cat.png"
    ∧ load_image_source "images/pisa.jpeg" = ImageSource.localFile "images/pisa.jpeg" := by
  refine ⟨fun s => ?_, by decide, by decide⟩
  unfold load_image_source load_image_isRemote
  rw [← strContains_iff_infix]
  by_cases h : strContains s.toList "http".toList = true <;> simp [h]

/-- C10: the telemetry writer receives the total-loss scalar at every
iteration index from 0 to `steps`, while the console print, the
intermediate display and the figure snapshot happen exactly at the
multiples of `show_every`. -/
theorem scalar_logged_every_iteration :
    (∀ ii : Nat, Event.addScalar ii ∈ programEvents ↔ ii ≤ steps)
    ∧ (∀ ii : Nat, Event.printLoss ii ∈ programEvents ↔ ii ≤ steps ∧ ii % show_every = 0)
    ∧ (∀ ii : Nat, Event.imshowTarget ii ∈ programEvents ↔ ii ≤ steps ∧ ii % show_every = 0)
    ∧ (∀ ii : Nat, Event.addFigure ii ∈ programEvents ↔ ii ≤ steps ∧ ii % show_every = 0) := by
  refine ⟨fun ii => ?_, fun ii => ?_, fun ii => ?_, fun ii => ?_⟩ <;>
    simp [programEvents, loopEvents, List.mem_flatMap, mem_iterEvents_addScalar,
      mem_iterEvents_printLoss, mem_iterEvents_imshowTarget, mem_iterEvents_addFigure,
      Nat.lt_succ_iff] <;>
    exact ⟨fun h => by rcases h with ⟨a, ha, rfl, hm⟩; exact ⟨ha, hm⟩,
      fun h => ⟨ii, h.1, rfl, h.2⟩⟩

end StyleTransfer
